import Mathlib

/-!
Verification of the message synchronization engine of the chat application
(source: src/src/app/chat/page.tsx).

The development shallowly embeds the state updates performed on the
React state variable holding the active conversation transcript
(called the Message Store in the specification):

- the realtime insert callback and its merge algorithm
  (handleRealtimeMessageCallback, page.tsx lines 108-171),
- the history fetch effect (fetchMessages, lines 179-195),
- the send handler with its optimistic append, failure rollback and
  success reconciliation (handleSendMessage, lines 269-317).

Timestamps are modelled as natural numbers: the source stores ISO
strings and compares them through Date getTime, a monotone reading of
the timestamp. Message ids are modelled by a sum of numbers (server
issued, persisted) and strings (locally generated temporary ids), as in
the TypeScript union type number | string; strict equality between a
number and a string is false, matching the constructor distinction.
-/

namespace ChatApp

/-- Identifier of a message: the TypeScript field id has type
number | string, where numbers are server issued persisted ids and
strings are locally generated temporary ids of the shape temp-... . -/
inductive MsgId where
  | num : Nat → MsgId
  | str : String → MsgId
deriving DecidableEq, Repr

/-- The check msg.id.toString().startsWith(\x22temp-\x22) of the source:
a number never prints with that leading character sequence, a string
keeps itself under toString. Testing the leading characters is phrased
on the underlying character list so that it evaluates inside the
kernel. -/
def MsgId.isTempId : MsgId → Bool
  | .num _ => false
  | .str s => List.isPrefixOf "temp-".data s.data

/-- The Message record of page.tsx lines 8-15. -/
structure Message where
  id : MsgId
  content : String
  created_at : Nat
  sender_id : String
  recipient_id : Option String
  group_id : Option Nat
deriving DecidableEq, Repr

/-- The Profile record of page.tsx lines 17-20. -/
structure Profile where
  id : String
  username : String
deriving DecidableEq, Repr

/-- The Group record of page.tsx lines 22-27. -/
structure Group where
  id : Nat
  name : String
  created_at : Nat
  created_by : String
deriving DecidableEq, Repr

/-- The ChatListItem union of page.tsx lines 29-31; the derived string
key field of the source is a function of the payload and is not used by
the message logic, so it is not repeated here. -/
inductive ChatListItem where
  | dm : Profile → ChatListItem
  | group : Group → ChatListItem
deriving DecidableEq, Repr

/-- Comparison used by every re-sort of the store: the comparator
(a, b) => new Date(a.created_at).getTime() - new Date(b.created_at).getTime()
orders ascending by timestamp. -/
def msgLe (a b : Message) : Prop := a.created_at ≤ b.created_at

instance : DecidableRel msgLe := fun a b => Nat.decLe a.created_at b.created_at

instance : IsTotal Message msgLe := ⟨fun a b => Nat.le_total a.created_at b.created_at⟩

instance : IsTrans Message msgLe := ⟨fun _ _ _ => Nat.le_trans⟩

/-- The re-sort applied after each store update. JavaScript sort is
stable, and a stable ascending sort is insertion sort with the
non-strict comparison. -/
def sortByCreatedAt (l : List Message) : List Message := l.insertionSort msgLe

/-- The helper messageExists of page.tsx lines 134-135: a message is
considered present when some entry has the same id, or some temporary
entry has the same content and sender. -/
def messageExists (msgs : List Message) (newMessage : Message) : Bool :=
  msgs.any fun msg =>
    decide (msg.id = newMessage.id ∨
      (msg.id.isTempId ∧ msg.content = newMessage.content ∧
        msg.sender_id = newMessage.sender_id))

/-- One mapping step of the own-message branch of the merge
(page.tsx lines 148-161): a temporary entry with matching sender and
content, or an entry with the same id, is replaced by the incoming
message; everything else is kept. -/
def confirmReplace (incomingMessage msg : Message) : Message :=
  if msg.id.isTempId ∧ msg.sender_id = incomingMessage.sender_id ∧
      msg.content = incomingMessage.content then incomingMessage
  else if msg.id = incomingMessage.id then incomingMessage
  else msg

/-- The flag named replaced in the source, set during the map whenever
either replacement condition fires for some entry. -/
def anyReplaced (incomingMessage : Message) (prev : List Message) : Bool :=
  prev.any fun msg =>
    decide ((msg.id.isTempId ∧ msg.sender_id = incomingMessage.sender_id ∧
        msg.content = incomingMessage.content) ∨ msg.id = incomingMessage.id)

/-- The store update of the realtime callback (page.tsx lines 138-169),
applied once the event passed the active-chat check. The first branch
handles messages of other users, the second the own confirmed
messages. -/
def mergeMessage (currentUser : Profile) (incomingMessage : Message)
    (prevMessages : List Message) : List Message :=
  if incomingMessage.sender_id ≠ currentUser.id then
    if messageExists prevMessages incomingMessage then prevMessages
    else sortByCreatedAt (prevMessages ++ [incomingMessage])
  else
    let updatedMessages := prevMessages.map (confirmReplace incomingMessage)
    if !anyReplaced incomingMessage prevMessages &&
        !messageExists updatedMessages incomingMessage then
      sortByCreatedAt (updatedMessages ++ [incomingMessage])
    else
      sortByCreatedAt updatedMessages

/-- The active-chat check of page.tsx lines 117-127. -/
def isForActiveChat (currentUser : Profile) (selectedChat : ChatListItem)
    (incomingMessage : Message) : Bool :=
  match selectedChat with
  | .dm dmPartner =>
      decide (((incomingMessage.sender_id = currentUser.id ∧
          incomingMessage.recipient_id = some dmPartner.id) ∨
        (incomingMessage.sender_id = dmPartner.id ∧
          incomingMessage.recipient_id = some currentUser.id)) ∧
        incomingMessage.group_id = none)
  | .group g =>
      decide (incomingMessage.group_id = some g.id ∧
        incomingMessage.recipient_id = none)

/-- The full realtime callback handleRealtimeMessageCallback
(page.tsx lines 108-171) as a function on the store: with no current
user or no selected chat it returns early, an event that fails the
active-chat check is ignored, and an accepted event is merged. -/
def handleRealtimeMessageCallback (currentUser : Option Profile)
    (selectedChat : Option ChatListItem) (incomingMessage : Message)
    (messages : List Message) : List Message :=
  match currentUser, selectedChat with
  | some u, some chat =>
      if isForActiveChat u chat incomingMessage then
        mergeMessage u incomingMessage messages
      else messages
  | _, _ => messages

/-- The history fetch of page.tsx lines 179-195, as its effect on the
store: on success the query result replaces the store wholesale; on
error the source only logs (console.error, line 192) and does not call
setMessages, so the store keeps its previous contents. -/
def fetchMessagesUpdate (prev : List Message)
    (result : Except String (List Message)) : List Message :=
  match result with
  | .error _ => prev
  | .ok data => data

/-- The insert payload of page.tsx lines 280-286: the row sent to the
persistent store, without id and timestamp. -/
structure DbPayload where
  content : String
  sender_id : String
  recipient_id : Option String
  group_id : Option Nat
deriving DecidableEq, Repr

/-- Construction of the payload from the selected chat
(page.tsx lines 282-286). -/
def mkDbPayload (content : String) (currentUser : Profile)
    (selectedChat : ChatListItem) : DbPayload :=
  match selectedChat with
  | .dm dmPartner => ⟨content, currentUser.id, some dmPartner.id, none⟩
  | .group g => ⟨content, currentUser.id, none, some g.id⟩

/-- The temporary id template of page.tsx line 273, a string literal
beginning with temp- followed by timestamp and random data. -/
def mkTempId (suffix : String) : String := "temp-" ++ suffix

/-- The provisional local message of page.tsx lines 288-292. -/
def mkTempMessage (payload : DbPayload) (tempId : String) (now : Nat) :
    Message :=
  { id := .str tempId, content := payload.content, created_at := now,
    sender_id := payload.sender_id, recipient_id := payload.recipient_id,
    group_id := payload.group_id }

/-- The falsiness test !newMessage.trim() of page.tsx line 271: the
trimmed input is the empty string exactly when every character of the
input is whitespace. Stated on the character list so that it evaluates
inside the kernel. -/
def trimsToEmpty (s : String) : Bool := s.data.all Char.isWhitespace

/-- The synchronous part of handleSendMessage (page.tsx lines 269-299):
the guard of line 271 returns with no store change and no insert when
the trimmed input is empty or no chat is selected or no current user is
known; otherwise the temporary message is appended (re-sorting, line
294) and the payload is submitted. The returned pair is the new store
together with the payload passed to the persistence call, if any. -/
def handleSendMessagePre (newMessage : String)
    (selectedChat : Option ChatListItem) (currentUser : Option Profile)
    (tempSuffix : String) (now : Nat) (prev : List Message) :
    List Message × Option DbPayload :=
  match selectedChat, currentUser with
  | some chat, some user =>
      if trimsToEmpty newMessage then (prev, none)
      else
        let dbPayload := mkDbPayload newMessage user chat
        let tempMessage := mkTempMessage dbPayload (mkTempId tempSuffix) now
        (sortByCreatedAt (prev ++ [tempMessage]), some dbPayload)
  | _, _ => (prev, none)

/-- The failure branch of handleSendMessage (page.tsx lines 303-306):
the store drops exactly the entries carrying the temporary id of this
send, and the error is surfaced through alert with the prefix used at
line 306. The pair returned is the new store and the reported text. -/
def handleSendFailure (tempMessage : Message) (errMsg : String)
    (prev : List Message) : List Message × String :=
  (prev.filter fun msg => decide (msg.id ≠ tempMessage.id),
   "Error: " ++ errMsg)

/-- The success branch of handleSendMessage (page.tsx lines 307-316):
if an entry with the confirmed id already exists it is refreshed in
place, otherwise the temporary entry of this send is replaced by the
confirmed row; both paths re-sort. -/
def handleSendSuccess (tempMessage data : Message)
    (prev : List Message) : List Message :=
  match prev.find? (fun m => decide (m.id = data.id)) with
  | some _ =>
      sortByCreatedAt (prev.map fun m => if m.id = data.id then data else m)
  | none =>
      sortByCreatedAt
        (prev.map fun msg => if msg.id = tempMessage.id then data else msg)

/-- One store-modifying event of the synchronization engine, used to
express reachability of store states by interleavings of the code
paths above. -/
inductive ChatEvent where
  | loadOk : List Message → ChatEvent
  | loadErr : String → ChatEvent
  | sendOptimistic : Message → ChatEvent
  | sendSuccess : Message → Message → ChatEvent
  | sendFailure : Message → String → ChatEvent
  | push : Message → ChatEvent
deriving DecidableEq, Repr

/-- Effect of one event on the store, each case delegating to the
corresponding code path of page.tsx. -/
def stepStore (currentUser : Profile) (selectedChat : ChatListItem)
    (store : List Message) : ChatEvent → List Message
  | .loadOk data => fetchMessagesUpdate store (.ok data)
  | .loadErr e => fetchMessagesUpdate store (.error e)
  | .sendOptimistic tempMessage => sortByCreatedAt (store ++ [tempMessage])
  | .sendSuccess tempMessage data => handleSendSuccess tempMessage data store
  | .sendFailure tempMessage e => (handleSendFailure tempMessage e store).1
  | .push m =>
      handleRealtimeMessageCallback (some currentUser) (some selectedChat)
        m store

/-- Store reached from the empty store (the state created at
conversation selection) by a sequence of events. -/
def runEvents (currentUser : Profile) (selectedChat : ChatListItem)
    (events : List ChatEvent) : List Message :=
  events.foldl (stepStore currentUser selectedChat) []

/-- The invariant of the specification: no two entries of the store
share the same non-temporary (persisted) id. -/
def noDupPersistedIds (msgs : List Message) : Prop :=
  ((msgs.filter fun m => !m.id.isTempId).map Message.id).Nodup

instance (msgs : List Message) : Decidable (noDupPersistedIds msgs) :=
  inferInstanceAs (Decidable (List.Nodup _))

/-! Basic facts about the merge branches and the re-sort. -/

/-- The replacement condition of the first branch of the map at
page.tsx lines 149-152: a temporary entry of the same sender with the
same content. -/
def tempMatch (incomingMessage msg : Message) : Prop :=
  msg.id.isTempId ∧ msg.sender_id = incomingMessage.sender_id ∧
    msg.content = incomingMessage.content

instance (m msg : Message) : Decidable (tempMatch m msg) :=
  inferInstanceAs (Decidable (_ ∧ _))

/-- Either replacement condition of the own-message map. -/
def mergeHit (incomingMessage msg : Message) : Prop :=
  tempMatch incomingMessage msg ∨ msg.id = incomingMessage.id

instance (m msg : Message) : Decidable (mergeHit m msg) :=
  inferInstanceAs (Decidable (_ ∨ _))

theorem messageExists_eq_true_iff (msgs : List Message) (m : Message) :
    messageExists msgs m = true ↔ ∃ msg ∈ msgs, mergeHit m msg := by
  simp only [messageExists, List.any_eq_true, decide_eq_true_eq, mergeHit,
    tempMatch]
  constructor
  · rintro ⟨msg, hmem, h | h⟩
    · exact ⟨msg, hmem, Or.inr h⟩
    · exact ⟨msg, hmem, Or.inl ⟨h.1, h.2.2, h.2.1⟩⟩
  · rintro ⟨msg, hmem, h | h⟩
    · exact ⟨msg, hmem, Or.inr ⟨h.1, h.2.2, h.2.1⟩⟩
    · exact ⟨msg, hmem, Or.inl h⟩

theorem anyReplaced_eq_true_iff (m : Message) (prev : List Message) :
    anyReplaced m prev = true ↔ ∃ msg ∈ prev, mergeHit m msg := by
  simp only [anyReplaced, List.any_eq_true, decide_eq_true_eq, mergeHit,
    tempMatch]

theorem anyReplaced_eq_messageExists (m : Message) (prev : List Message) :
    anyReplaced m prev = messageExists prev m := by
  rcases h : messageExists prev m with _ | _
  · rcases h2 : anyReplaced m prev with _ | _
    · rfl
    · rw [anyReplaced_eq_true_iff] at h2
      have := (messageExists_eq_true_iff prev m).mpr h2
      rw [h] at this
      exact absurd this Bool.false_ne_true
  · exact (anyReplaced_eq_true_iff m prev).mpr
      ((messageExists_eq_true_iff prev m).mp h)

theorem confirmReplace_of_hit {m msg : Message} (h : mergeHit m msg) :
    confirmReplace m msg = m := by
  by_cases ht : msg.id.isTempId = true ∧ msg.sender_id = m.sender_id ∧
      msg.content = m.content
  · unfold confirmReplace
    rw [if_pos ht]
  · rcases h with h | h
    · exact absurd ⟨h.1, h.2.1, h.2.2⟩ ht
    · unfold confirmReplace
      rw [if_neg ht, if_pos h]

theorem confirmReplace_of_not_hit {m msg : Message} (h : ¬ mergeHit m msg) :
    confirmReplace m msg = msg := by
  unfold confirmReplace
  rw [if_neg, if_neg]
  · exact fun hid => h (Or.inr hid)
  · exact fun ht => h (Or.inl ⟨ht.1, ht.2.1, ht.2.2⟩)

theorem mergeHit_self (m : Message) : mergeHit m m := Or.inr rfl

/-- On the own-message side, the map is the identity when the replaced
flag stays false. -/
theorem map_confirmReplace_eq_self {m : Message} {prev : List Message}
    (h : anyReplaced m prev = false) :
    prev.map (confirmReplace m) = prev := by
  have hno : ∀ msg ∈ prev, ¬ mergeHit m msg := by
    intro msg hmem hhit
    have : anyReplaced m prev = true :=
      (anyReplaced_eq_true_iff m prev).mpr ⟨msg, hmem, hhit⟩
    rw [h] at this
    exact Bool.false_ne_true this
  calc prev.map (confirmReplace m)
      = prev.map id := List.map_congr_left fun msg hmem =>
        confirmReplace_of_not_hit (hno msg hmem)
    _ = prev := List.map_id prev

/-- Shape of the merge for a message of another user
(page.tsx lines 140-144). -/
theorem mergeMessage_other {u : Profile} {m : Message}
    (prev : List Message) (hs : m.sender_id ≠ u.id) :
    mergeMessage u m prev =
      if messageExists prev m then prev
      else sortByCreatedAt (prev ++ [m]) := by
  unfold mergeMessage
  rw [if_pos hs]

/-- Shape of the merge for an own message (page.tsx lines 145-168):
when some entry matches, the map replaces every matching entry and the
result is re-sorted; when none matches, the message is appended and the
result is re-sorted. -/
theorem mergeMessage_own {u : Profile} {m : Message}
    (prev : List Message) (hs : m.sender_id = u.id) :
    mergeMessage u m prev =
      if anyReplaced m prev then
        sortByCreatedAt (prev.map (confirmReplace m))
      else sortByCreatedAt (prev ++ [m]) := by
  rcases hr : anyReplaced m prev with _ | _
  · have hme : messageExists prev m = false := by
      rw [← anyReplaced_eq_messageExists, hr]
    unfold mergeMessage
    rw [if_neg (by simp [hs])]
    simp only [map_confirmReplace_eq_self hr, hme, hr]
    simp
  · unfold mergeMessage
    rw [if_neg (by simp [hs])]
    simp only [hr]
    simp

theorem sortByCreatedAt_sorted (l : List Message) :
    List.Sorted msgLe (sortByCreatedAt l) :=
  List.sorted_insertionSort msgLe l

theorem sortByCreatedAt_eq_of_sorted {l : List Message}
    (h : List.Sorted msgLe l) : sortByCreatedAt l = l :=
  h.insertionSort_eq

theorem sortByCreatedAt_idem (l : List Message) :
    sortByCreatedAt (sortByCreatedAt l) = sortByCreatedAt l :=
  sortByCreatedAt_eq_of_sorted (sortByCreatedAt_sorted l)

theorem mem_sortByCreatedAt {x : Message} {l : List Message} :
    x ∈ sortByCreatedAt l ↔ x ∈ l :=
  List.mem_insertionSort msgLe

theorem sortByCreatedAt_perm (l : List Message) :
    List.Perm (sortByCreatedAt l) l :=
  List.perm_insertionSort msgLe l

/-! Idempotence of the merge. -/

theorem not_mergeHit_of_anyReplaced_false {m : Message} {prev : List Message}
    (hr : anyReplaced m prev = false) :
    ∀ msg ∈ prev, ¬ mergeHit m msg := by
  intro msg hmem hhit
  have := (anyReplaced_eq_true_iff m prev).mpr ⟨msg, hmem, hhit⟩
  rw [hr] at this
  exact absurd this Bool.false_ne_true

theorem mergeMessage_idem (u : Profile) (m : Message) (prev : List Message) :
    mergeMessage u m (mergeMessage u m prev) = mergeMessage u m prev := by
  by_cases hs : m.sender_id = u.id
  · rcases hr : anyReplaced m prev with _ | _
    · have hR : mergeMessage u m prev = sortByCreatedAt (prev ++ [m]) := by
        rw [mergeMessage_own prev hs, hr]
        simp
      have hmR : m ∈ mergeMessage u m prev := by
        rw [hR, mem_sortByCreatedAt]
        simp
      have hr2 : anyReplaced m (mergeMessage u m prev) = true :=
        (anyReplaced_eq_true_iff m _).mpr ⟨m, hmR, mergeHit_self m⟩
      rw [mergeMessage_own (mergeMessage u m prev) hs, hr2, if_pos rfl]
      have hmap : (mergeMessage u m prev).map (confirmReplace m) =
          mergeMessage u m prev := by
        have hfix : ∀ x ∈ mergeMessage u m prev, confirmReplace m x = x := by
          intro x hx
          rw [hR, mem_sortByCreatedAt] at hx
          rcases List.mem_append.mp hx with hx | hx
          · exact confirmReplace_of_not_hit
              (not_mergeHit_of_anyReplaced_false hr x hx)
          · rw [List.mem_singleton.mp hx]
            exact confirmReplace_of_hit (mergeHit_self m)
        calc (mergeMessage u m prev).map (confirmReplace m)
            = (mergeMessage u m prev).map id := List.map_congr_left hfix
          _ = mergeMessage u m prev := List.map_id _
      rw [hmap, hR, sortByCreatedAt_idem]
    · obtain ⟨msg, hmem, hhit⟩ := (anyReplaced_eq_true_iff m prev).mp hr
      have hR : mergeMessage u m prev =
          sortByCreatedAt (prev.map (confirmReplace m)) := by
        rw [mergeMessage_own prev hs, hr, if_pos rfl]
      have hmR : m ∈ mergeMessage u m prev := by
        rw [hR, mem_sortByCreatedAt]
        exact List.mem_map.mpr ⟨msg, hmem, confirmReplace_of_hit hhit⟩
      have hr2 : anyReplaced m (mergeMessage u m prev) = true :=
        (anyReplaced_eq_true_iff m _).mpr ⟨m, hmR, mergeHit_self m⟩
      rw [mergeMessage_own (mergeMessage u m prev) hs, hr2, if_pos rfl]
      have hmap : (mergeMessage u m prev).map (confirmReplace m) =
          mergeMessage u m prev := by
        have hfix : ∀ x ∈ mergeMessage u m prev, confirmReplace m x = x := by
          intro x hx
          rw [hR, mem_sortByCreatedAt] at hx
          obtain ⟨y, _, hyx⟩ := List.mem_map.mp hx
          by_cases hy : mergeHit m y
          · rw [← hyx, confirmReplace_of_hit hy]
            exact confirmReplace_of_hit (mergeHit_self m)
          · rw [← hyx, confirmReplace_of_not_hit hy,
              confirmReplace_of_not_hit hy]
        calc (mergeMessage u m prev).map (confirmReplace m)
            = (mergeMessage u m prev).map id := List.map_congr_left hfix
          _ = mergeMessage u m prev := List.map_id _
      rw [hmap, hR, sortByCreatedAt_idem]
  · rcases he : messageExists prev m with _ | _
    · have hR : mergeMessage u m prev = sortByCreatedAt (prev ++ [m]) := by
        rw [mergeMessage_other prev hs, he]
        simp
      have hmR : m ∈ mergeMessage u m prev := by
        rw [hR, mem_sortByCreatedAt]
        simp
      have he2 : messageExists (mergeMessage u m prev) m = true :=
        (messageExists_eq_true_iff _ m).mpr ⟨m, hmR, mergeHit_self m⟩
      rw [mergeMessage_other (mergeMessage u m prev) hs, he2, if_pos rfl]
    · have hR : mergeMessage u m prev = prev := by
        rw [mergeMessage_other prev hs, he, if_pos rfl]
      rw [hR, mergeMessage_other prev hs, he, if_pos rfl]

/-- C1: for every Message Store state and every message M, applying the
merge operation of the realtime callback twice with the same M yields
the same Message Store as applying it once. -/
theorem handleRealtimeMessageCallback_idempotent
    (currentUser : Option Profile) (selectedChat : Option ChatListItem)
    (m : Message) (messages : List Message) :
    handleRealtimeMessageCallback currentUser selectedChat m
        (handleRealtimeMessageCallback currentUser selectedChat m messages) =
      handleRealtimeMessageCallback currentUser selectedChat m messages := by
  rcases currentUser with _ | u
  · rfl
  rcases selectedChat with _ | chat
  · rfl
  show (if isForActiveChat u chat m then
      mergeMessage u m (handleRealtimeMessageCallback (some u) (some chat)
        m messages)
    else handleRealtimeMessageCallback (some u) (some chat) m messages) = _
  rcases hf : isForActiveChat u chat m with _ | _
  · simp only [handleRealtimeMessageCallback, hf]
    simp
  · simp only [handleRealtimeMessageCallback, hf, if_pos rfl]
    exact mergeMessage_idem u m messages

/-! Scoping of inbound events. -/

/-- Acceptance rule exactly as the specification words it (sections 4.3
and 8): for a direct conversation, the sender and recipient are the
current user and the counterpart in one of the two directions and the
event carries no group tag; for a group conversation, the group tag
equals the group id of the conversation and there is no recipient. -/
def specAccepts (u : Profile) (chat : ChatListItem) (e : Message) : Prop :=
  match chat with
  | .dm counterpart =>
      ((e.sender_id = u.id ∧ e.recipient_id = some counterpart.id) ∨
        (e.sender_id = counterpart.id ∧ e.recipient_id = some u.id)) ∧
      e.group_id = none
  | .group g => e.group_id = some g.id ∧ e.recipient_id = none

instance (u : Profile) (chat : ChatListItem) (e : Message) :
    Decidable (specAccepts u chat e) :=
  match chat with
  | .dm _ => inferInstanceAs (Decidable (_ ∧ _))
  | .group _ => inferInstanceAs (Decidable (_ ∧ _))

/-- C3: an inbound event is accepted into the Message Store only under
the scoping rule of the specification, and every other event leaves
the Message Store unchanged. -/
theorem callback_scoped (u : Profile) (chat : ChatListItem) (e : Message)
    (messages : List Message) :
    handleRealtimeMessageCallback (some u) (some chat) e messages =
      if specAccepts u chat e then mergeMessage u e messages
      else messages := by
  have hiff : isForActiveChat u chat e = true ↔ specAccepts u chat e := by
    rcases chat with p | g <;>
      simp [isForActiveChat, specAccepts, decide_eq_true_eq]
  show (if isForActiveChat u chat e then mergeMessage u e messages
    else messages) = _
  by_cases h : specAccepts u chat e
  · rw [if_pos (hiff.mpr h), if_pos h]
  · rw [if_neg fun hh => h (hiff.mp hh), if_neg h]

/-! Stability of the re-sort: the JavaScript sort is stable, and the
embedding through insertion sort keeps entries with equal timestamps in
their prior relative order. This is expressed through commutation of
filtering with the sort. -/

theorem orderedInsert_eq_cons {a : Message} {l : List Message}
    (h : ∀ b ∈ l, msgLe a b) : List.orderedInsert msgLe a l = a :: l := by
  cases l with
  | nil => rfl
  | cons b t => exact List.orderedInsert_of_le msgLe t (h b (by simp))

theorem filter_orderedInsert (p : Message → Bool) (a : Message) :
    ∀ l : List Message, List.Sorted msgLe l →
      (List.orderedInsert msgLe a l).filter p =
        if p a then List.orderedInsert msgLe a (l.filter p)
        else l.filter p
  | [], _ => by
      cases hpa : p a <;> simp [hpa]
  | b :: t, h => by
      have hb := List.rel_of_sorted_cons h
      by_cases hab : msgLe a b
      · rw [List.orderedInsert_of_le msgLe t hab]
        cases hpa : p a with
        | false => simp [List.filter_cons, hpa]
        | true =>
            have hcons : List.orderedInsert msgLe a ((b :: t).filter p) =
                a :: (b :: t).filter p := by
              apply orderedInsert_eq_cons
              intro c hc
              rcases List.mem_cons.mp (List.mem_of_mem_filter hc) with hc | hc
              · rw [hc]
                exact hab
              · exact Nat.le_trans hab (hb c hc)
            calc (a :: b :: t).filter p
                = a :: (b :: t).filter p := by simp [List.filter_cons, hpa]
              _ = List.orderedInsert msgLe a ((b :: t).filter p) := hcons.symm
              _ = if true = true then
                    List.orderedInsert msgLe a ((b :: t).filter p)
                  else (b :: t).filter p := (if_pos rfl).symm
      · have hins : List.orderedInsert msgLe a (b :: t) =
            b :: List.orderedInsert msgLe a t := by
          simp [List.orderedInsert, hab]
        have ih := filter_orderedInsert p a t h.of_cons
        rw [hins]
        cases hpa : p a with
        | false =>
            rw [hpa] at ih
            simp only [List.filter_cons, ih]
            cases hpb : p b <;> simp [hpb]
        | true =>
            rw [hpa] at ih
            simp only [List.filter_cons, ih]
            cases hpb : p b with
            | false => simp [hpb]
            | true => simp [hpb, List.orderedInsert, hab]

theorem filter_sortByCreatedAt (p : Message → Bool) (l : List Message) :
    (sortByCreatedAt l).filter p = sortByCreatedAt (l.filter p) := by
  induction l with
  | nil => rfl
  | cons a t ih =>
      show (List.orderedInsert msgLe a (List.insertionSort msgLe t)).filter p
        = sortByCreatedAt ((a :: t).filter p)
      rw [filter_orderedInsert p a _ (List.sorted_insertionSort msgLe t)]
      cases hpa : p a with
      | false =>
          have : (a :: t).filter p = t.filter p := by simp [List.filter_cons, hpa]
          rw [this]
          exact ih
      | true =>
          have : (a :: t).filter p = a :: t.filter p := by
            simp [List.filter_cons, hpa]
          rw [this]
          show List.orderedInsert msgLe a ((List.insertionSort msgLe t).filter p)
            = List.orderedInsert msgLe a (List.insertionSort msgLe (t.filter p))
          simp only [sortByCreatedAt] at ih
          rw [ih]

/-- Entries carrying one fixed timestamp appear in the sorted store in
exactly the order they had before the re-sort: the re-sort is stable. -/
theorem sortByCreatedAt_stable (l : List Message) (t : Nat) :
    (sortByCreatedAt l).filter (fun x => decide (x.created_at = t)) =
      l.filter (fun x => decide (x.created_at = t)) := by
  rw [filter_sortByCreatedAt]
  apply sortByCreatedAt_eq_of_sorted
  apply List.pairwise_of_forall_mem_list
  intro a ha b hb
  have ha2 := List.of_mem_filter ha
  have hb2 := List.of_mem_filter hb
  simp only [decide_eq_true_eq] at ha2 hb2
  show a.created_at ≤ b.created_at
  rw [ha2, hb2]

/-! Sortedness after every store-modifying operation. -/

theorem mergeMessage_sorted (u : Profile) (m : Message) {prev : List Message}
    (h : List.Sorted msgLe prev) :
    List.Sorted msgLe (mergeMessage u m prev) := by
  by_cases hs : m.sender_id = u.id
  · rw [mergeMessage_own prev hs]
    split
    · exact sortByCreatedAt_sorted _
    · exact sortByCreatedAt_sorted _
  · rw [mergeMessage_other prev hs]
    split
    · exact h
    · exact sortByCreatedAt_sorted _

theorem handleRealtimeMessageCallback_sorted (currentUser : Option Profile)
    (selectedChat : Option ChatListItem) (m : Message) {prev : List Message}
    (h : List.Sorted msgLe prev) :
    List.Sorted msgLe
      (handleRealtimeMessageCallback currentUser selectedChat m prev) := by
  rcases currentUser with _ | u
  · exact h
  rcases selectedChat with _ | chat
  · exact h
  show List.Sorted msgLe
    (if isForActiveChat u chat m then mergeMessage u m prev else prev)
  split
  · exact mergeMessage_sorted u m h
  · exact h

theorem handleSendSuccess_sorted (tempMessage data : Message)
    (prev : List Message) :
    List.Sorted msgLe (handleSendSuccess tempMessage data prev) := by
  unfold handleSendSuccess
  split
  · exact sortByCreatedAt_sorted _
  · exact sortByCreatedAt_sorted _

theorem handleSendMessagePre_sorted (newMessage : String)
    (selectedChat : Option ChatListItem) (currentUser : Option Profile)
    (tempSuffix : String) (now : Nat) {prev : List Message}
    (h : List.Sorted msgLe prev) :
    List.Sorted msgLe
      (handleSendMessagePre newMessage selectedChat currentUser tempSuffix
        now prev).1 := by
  rcases selectedChat with _ | chat
  · exact h
  rcases currentUser with _ | user
  · exact h
  show List.Sorted msgLe
    (if trimsToEmpty newMessage then (prev, (none : Option DbPayload))
      else (sortByCreatedAt (prev ++
        [mkTempMessage (mkDbPayload newMessage user chat)
          (mkTempId tempSuffix) now]),
        some (mkDbPayload newMessage user chat))).1
  split
  · exact h
  · exact sortByCreatedAt_sorted _

/-- C4: after every store-modifying operation of the engine (successful
history load of a list the persistent store returned ascending,
optimistic append of a send, reconciliation of a send confirmation,
merge of a push event, send-failure removal) the Message Store is
sorted ascending by created_at; and the re-sort employed by these
operations is stable, keeping entries with equal timestamps in their
prior relative order. -/
theorem store_sorted_and_resort_stable
    (currentUser : Option Profile) (selectedChat : Option ChatListItem)
    (m tempMessage data : Message) (newMessage errMsg tempSuffix : String)
    (now t : Nat) (loaded prev l : List Message)
    (hprev : List.Sorted msgLe prev) (hloaded : List.Sorted msgLe loaded) :
    List.Sorted msgLe (fetchMessagesUpdate prev (.ok loaded)) ∧
    List.Sorted msgLe
      (handleSendMessagePre newMessage selectedChat currentUser tempSuffix
        now prev).1 ∧
    List.Sorted msgLe (handleSendSuccess tempMessage data prev) ∧
    List.Sorted msgLe (handleSendFailure tempMessage errMsg prev).1 ∧
    List.Sorted msgLe
      (handleRealtimeMessageCallback currentUser selectedChat m prev) ∧
    (sortByCreatedAt l).filter (fun x => decide (x.created_at = t)) =
      l.filter (fun x => decide (x.created_at = t)) :=
  ⟨hloaded,
   handleSendMessagePre_sorted newMessage selectedChat currentUser
     tempSuffix now hprev,
   handleSendSuccess_sorted tempMessage data prev,
   hprev.filter _,
   handleRealtimeMessageCallback_sorted currentUser selectedChat m hprev,
   sortByCreatedAt_stable l t⟩

/-! Concrete data used by the closed statements below: a current user
alice, a direct conversation with bob, two provisional entries of two
sends of the same content, and the server row confirming the first of
them. -/

def aliceP : Profile := ⟨"u1", "alice"⟩

def bobP : Profile := ⟨"u2", "bob"⟩

def dmChat : ChatListItem := .dm bobP

def tempHi1 : Message := ⟨.str "temp-1-a", "hi", 100, "u1", some "u2", none⟩

def tempHi2 : Message := ⟨.str "temp-2-b", "hi", 101, "u1", some "u2", none⟩

def confirmedHi : Message := ⟨.num 5, "hi", 100, "u1", some "u2", none⟩

/-- Closed instance of the sortedness and stability statement. -/
theorem store_sorted_and_resort_stable_witness :
    List.Sorted msgLe [confirmedHi] ∧ List.Sorted msgLe [tempHi1] ∧
    (List.Sorted msgLe (fetchMessagesUpdate [confirmedHi] (.ok [tempHi1])) ∧
     List.Sorted msgLe
       (handleSendMessagePre "hi" (some dmChat) (some aliceP) "1-a" 100
         [confirmedHi]).1 ∧
     List.Sorted msgLe (handleSendSuccess tempHi1 confirmedHi [confirmedHi]) ∧
     List.Sorted msgLe
       (handleSendFailure tempHi1 "network" [confirmedHi]).1 ∧
     List.Sorted msgLe
       (handleRealtimeMessageCallback (some aliceP) (some dmChat) confirmedHi
         [confirmedHi]) ∧
     (sortByCreatedAt [tempHi2, tempHi1]).filter
         (fun x => decide (x.created_at = 100)) =
       [tempHi2, tempHi1].filter (fun x => decide (x.created_at = 100))) :=
  ⟨by decide, by decide,
   store_sorted_and_resort_stable (some aliceP) (some dmChat) confirmedHi
     tempHi1 confirmedHi "hi" "network" "1-a" 100 100 [tempHi1] [confirmedHi]
     [tempHi2, tempHi1] (by decide) (by decide)⟩

/-- C2: the no-duplicate-persisted-ids invariant fails on the code.
Two optimistic sends of the same content followed by the accepted push
event that confirms the first of them leave the store with two entries
carrying the persisted id 5, because the own-message map of the merge
replaces every temporary entry matching the sender and content, not
just one. -/
theorem duplicate_persisted_ids_reachable :
    runEvents aliceP dmChat
        [.sendOptimistic tempHi1, .sendOptimistic tempHi2,
          .push confirmedHi] =
      [confirmedHi, confirmedHi] ∧
    ¬ noDupPersistedIds
        (runEvents aliceP dmChat
          [.sendOptimistic tempHi1, .sendOptimistic tempHi2,
            .push confirmedHi]) :=
  ⟨by decide, by decide⟩

/-- C6 counterexample: with two temporary entries matching the sender
and content of the incoming message, the merge replaces both of them,
not only the first: the second temporary entry does not stay in the
store unchanged as the claim states. -/
theorem merge_not_first_match_only :
    mergeMessage aliceP confirmedHi [tempHi1, tempHi2] =
      [confirmedHi, confirmedHi] ∧
    tempHi2 ∉ mergeMessage aliceP confirmedHi [tempHi1, tempHi2] :=
  ⟨by decide, by decide⟩

/-- C6 amended: for an incoming own message whose persisted id is not
yet in the store and for which at least one matching temporary entry
exists, the merge replaces every matching temporary entry with M (not
only the oldest match), leaves every other entry unchanged, and
re-sorts. -/
theorem merge_confirmation_replaces_matching_temps
    (u : Profile) (m : Message) (prev : List Message)
    (hs : m.sender_id = u.id)
    (hid : ∀ msg ∈ prev, msg.id ≠ m.id)
    (ht : ∃ msg ∈ prev, tempMatch m msg) :
    mergeMessage u m prev =
      sortByCreatedAt
        (prev.map fun msg => if tempMatch m msg then m else msg) := by
  obtain ⟨msg0, hmem0, ht0⟩ := ht
  have hr : anyReplaced m prev = true :=
    (anyReplaced_eq_true_iff m prev).mpr ⟨msg0, hmem0, Or.inl ht0⟩
  rw [mergeMessage_own prev hs, hr, if_pos rfl]
  congr 1
  apply List.map_congr_left
  intro msg hmem
  by_cases hm : tempMatch m msg
  · rw [if_pos hm, confirmReplace_of_hit (Or.inl hm)]
  · rw [if_neg hm,
      confirmReplace_of_not_hit fun hh => hh.elim hm (hid msg hmem)]

/-- Closed instance of the amended replacement statement. -/
theorem merge_confirmation_replaces_matching_temps_witness :
    confirmedHi.sender_id = aliceP.id ∧
    (∀ msg ∈ [tempHi1, tempHi2], msg.id ≠ confirmedHi.id) ∧
    (∃ msg ∈ [tempHi1, tempHi2], tempMatch confirmedHi msg) ∧
    mergeMessage aliceP confirmedHi [tempHi1, tempHi2] =
      sortByCreatedAt
        ([tempHi1, tempHi2].map fun msg =>
          if tempMatch confirmedHi msg then confirmedHi else msg) :=
  ⟨by decide, by decide, by decide,
   merge_confirmation_replaces_matching_temps aliceP confirmedHi
     [tempHi1, tempHi2] (by decide) (by decide) (by decide)⟩

/-! Commutation of the send-success update with the push-event merge. -/

/-- C5: when the store holds exactly one temporary entry for the
just-sent message (matching it by sender and content, unique also by
its temporary id) and no entry carries the server-confirmed id yet,
the send-success update and the push-event merge commute: in either
order, the first operation replaces the temporary entry with the
confirmed record, and the second is absorbed by the id match. -/
theorem send_success_and_push_merge_commute
    (u : Profile) (T D : Message) (S : List Message)
    (hTmem : T ∈ S)
    (hT : tempMatch D T)
    (hs : D.sender_id = u.id)
    (huniq : ∀ msg ∈ S, tempMatch D msg → msg = T)
    (hid : ∀ msg ∈ S, msg.id ≠ D.id)
    (hTid : ∀ msg ∈ S, msg.id = T.id → msg = T) :
    handleSendSuccess T D (mergeMessage u D S) =
        mergeMessage u D (handleSendSuccess T D S) ∧
    handleSendSuccess T D (mergeMessage u D S) =
      sortByCreatedAt
        (S.map fun msg => if msg.id = T.id then D else msg) := by
  have hr : anyReplaced D S = true :=
    (anyReplaced_eq_true_iff D S).mpr ⟨T, hTmem, Or.inl hT⟩
  have hmapA : S.map (confirmReplace D) =
      S.map (fun msg => if msg.id = T.id then D else msg) := by
    apply List.map_congr_left
    intro msg hmem
    by_cases hmsgT : msg.id = T.id
    · have hmsg : msg = T := hTid msg hmem hmsgT
      rw [if_pos hmsgT, hmsg, confirmReplace_of_hit (Or.inl hT)]
    · rw [if_neg hmsgT, confirmReplace_of_not_hit (fun hh => hh.elim
        (fun hh2 => hmsgT (by rw [huniq msg hmem hh2]))
        (fun hh2 => hid msg hmem hh2))]
  have hA : mergeMessage u D S =
      sortByCreatedAt
        (S.map fun msg => if msg.id = T.id then D else msg) := by
    rw [mergeMessage_own S hs, hr, if_pos rfl, hmapA]
  have hfindS : S.find? (fun m => decide (m.id = D.id)) = none :=
    List.find?_eq_none.mpr (fun x hx => by simp [hid x hx])
  have hB : handleSendSuccess T D S =
      sortByCreatedAt
        (S.map fun msg => if msg.id = T.id then D else msg) := by
    unfold handleSendSuccess
    rw [hfindS]
  have hDR : D ∈ sortByCreatedAt
      (S.map fun msg => if msg.id = T.id then D else msg) :=
    mem_sortByCreatedAt.mpr
      (List.mem_map.mpr ⟨T, hTmem, by rw [if_pos rfl]⟩)
  have hRmem : ∀ x ∈ sortByCreatedAt
      (S.map fun msg => if msg.id = T.id then D else msg),
      x = D ∨ (x ∈ S ∧ x.id ≠ T.id) := by
    intro x hx
    rw [mem_sortByCreatedAt] at hx
    obtain ⟨y, hy, hyx⟩ := List.mem_map.mp hx
    by_cases hyT : y.id = T.id
    · left
      rw [← hyx, if_pos hyT]
    · right
      rw [← hyx, if_neg hyT]
      exact ⟨hy, hyT⟩
  have hC : handleSendSuccess T D
      (sortByCreatedAt
        (S.map fun msg => if msg.id = T.id then D else msg)) =
      sortByCreatedAt
        (S.map fun msg => if msg.id = T.id then D else msg) := by
    unfold handleSendSuccess
    cases hf : (sortByCreatedAt
        (S.map fun msg => if msg.id = T.id then D else msg)).find?
        (fun m => decide (m.id = D.id)) with
    | none => exact absurd (List.find?_eq_none.mp hf D hDR) (by simp)
    | some x =>
        have hmapid : (sortByCreatedAt
            (S.map fun msg => if msg.id = T.id then D else msg)).map
              (fun m => if m.id = D.id then D else m) =
            sortByCreatedAt
              (S.map fun msg => if msg.id = T.id then D else msg) := by
          have hfix : ∀ m ∈ sortByCreatedAt
              (S.map fun msg => if msg.id = T.id then D else msg),
              (if m.id = D.id then D else m) = m := by
            intro m hm
            rcases hRmem m hm with hm2 | ⟨hmS, _⟩
            · rw [hm2]
              split <;> rfl
            · rw [if_neg (hid m hmS)]
          calc (sortByCreatedAt
              (S.map fun msg => if msg.id = T.id then D else msg)).map
                (fun m => if m.id = D.id then D else m)
              = (sortByCreatedAt
                  (S.map fun msg => if msg.id = T.id then D else msg)).map
                  id := List.map_congr_left hfix
            _ = _ := List.map_id _
        rw [hmapid]
        exact sortByCreatedAt_eq_of_sorted (sortByCreatedAt_sorted _)
  have hrR : anyReplaced D (sortByCreatedAt
      (S.map fun msg => if msg.id = T.id then D else msg)) = true :=
    (anyReplaced_eq_true_iff D _).mpr ⟨D, hDR, mergeHit_self D⟩
  have hD : mergeMessage u D
      (sortByCreatedAt
        (S.map fun msg => if msg.id = T.id then D else msg)) =
      sortByCreatedAt
        (S.map fun msg => if msg.id = T.id then D else msg) := by
    rw [mergeMessage_own _ hs, hrR, if_pos rfl]
    have hfix : ∀ x ∈ sortByCreatedAt
        (S.map fun msg => if msg.id = T.id then D else msg),
        confirmReplace D x = x := by
      intro x hx
      rcases hRmem x hx with hx2 | ⟨hxS, hxT⟩
      · rw [hx2]
        exact confirmReplace_of_hit (mergeHit_self D)
      · exact confirmReplace_of_not_hit (fun hh => hh.elim
          (fun hh2 => hxT (by rw [huniq x hxS hh2]))
          (fun hh2 => hid x hxS hh2))
    calc sortByCreatedAt ((sortByCreatedAt
        (S.map fun msg => if msg.id = T.id then D else msg)).map
          (confirmReplace D))
        = sortByCreatedAt ((sortByCreatedAt
            (S.map fun msg => if msg.id = T.id then D else msg)).map id) :=
          congrArg sortByCreatedAt (List.map_congr_left hfix)
      _ = _ := by
          rw [List.map_id]
          exact sortByCreatedAt_eq_of_sorted (sortByCreatedAt_sorted _)
  constructor
  · rw [hA, hB, hC, hD]
  · rw [hA, hC]

/-- Closed instance of the commutation statement. -/
theorem send_success_and_push_merge_commute_witness :
    tempHi1 ∈ [tempHi1] ∧ tempMatch confirmedHi tempHi1 ∧
    confirmedHi.sender_id = aliceP.id ∧
    (handleSendSuccess tempHi1 confirmedHi
        (mergeMessage aliceP confirmedHi [tempHi1]) =
      mergeMessage aliceP confirmedHi
        (handleSendSuccess tempHi1 confirmedHi [tempHi1]) ∧
     handleSendSuccess tempHi1 confirmedHi
        (mergeMessage aliceP confirmedHi [tempHi1]) =
      sortByCreatedAt
        ([tempHi1].map fun msg =>
          if msg.id = tempHi1.id then confirmedHi else msg)) :=
  ⟨by decide, by decide, by decide,
   send_success_and_push_merge_commute aliceP tempHi1 confirmedHi [tempHi1]
     (by decide) (by decide) (by decide) (by decide) (by decide)
     (by decide)⟩

/-! Rollback of a failed send. -/

/-- C7: when the persistence call of a send fails, exactly the one
temporary entry appended by that send is removed, selected by its
temporary id (a fresh id no other entry carries, so content-mates are
untouched); nothing is added, the rest of the store is unchanged, so
the count returns to its pre-send value, and the error is surfaced
with the Error: label of the source. -/
theorem send_failure_rollback
    (tempMessage : Message) (errMsg : String) (prev : List Message)
    (hprev : List.Sorted msgLe prev)
    (hfresh : ∀ msg ∈ prev, msg.id ≠ tempMessage.id) :
    (handleSendFailure tempMessage errMsg
        (sortByCreatedAt (prev ++ [tempMessage]))).1 = prev ∧
    (handleSendFailure tempMessage errMsg
        (sortByCreatedAt (prev ++ [tempMessage]))).2 =
      "Error: " ++ errMsg := by
  constructor
  · show (sortByCreatedAt (prev ++ [tempMessage])).filter
        (fun msg => decide (msg.id ≠ tempMessage.id)) = prev
    rw [filter_sortByCreatedAt]
    have hfil : (prev ++ [tempMessage]).filter
        (fun msg => decide (msg.id ≠ tempMessage.id)) = prev := by
      rw [List.filter_append]
      have h1 : prev.filter (fun msg => decide (msg.id ≠ tempMessage.id)) =
          prev :=
        List.filter_eq_self.mpr (fun a ha => by simp [hfresh a ha])
      have h2 : [tempMessage].filter
          (fun msg => decide (msg.id ≠ tempMessage.id)) = [] := by simp
      rw [h1, h2, List.append_nil]
    rw [hfil]
    exact sortByCreatedAt_eq_of_sorted hprev
  · rfl

/-- Closed instance of the rollback statement; the surviving entry is a
temporary entry with the same content as the rolled-back one, showing
the removal keys on the id and not on the content. -/
theorem send_failure_rollback_witness :
    List.Sorted msgLe [tempHi2] ∧
    (∀ msg ∈ [tempHi2], msg.id ≠ tempHi1.id) ∧
    ((handleSendFailure tempHi1 "network"
        (sortByCreatedAt ([tempHi2] ++ [tempHi1]))).1 = [tempHi2] ∧
     (handleSendFailure tempHi1 "network"
        (sortByCreatedAt ([tempHi2] ++ [tempHi1]))).2 =
      "Error: " ++ "network") :=
  ⟨by decide, by decide,
   send_failure_rollback tempHi1 "network" [tempHi2] (by decide)
     (by decide)⟩

/-! Behavior of the history loader on a failed fetch. -/

/-- C8 counterexample: a failed history fetch after a switch from a
conversation whose transcript held one message does not leave the
store empty: the error branch of fetchMessages only logs and never
calls setMessages, so the entry of the previously selected
conversation is still there. -/
theorem fetch_failure_store_not_empty :
    fetchMessagesUpdate [confirmedHi] (.error "network error") =
        [confirmedHi] ∧
    fetchMessagesUpdate [confirmedHi] (.error "network error") ≠ [] :=
  ⟨rfl, by decide⟩

/-- C8 amended: on a failed history fetch the error is reported (it is
logged) and the Message Store is left unchanged — so it may retain the
entries of a previously selected conversation — and no retry is
performed. -/
theorem fetch_failure_leaves_store_unchanged
    (prev : List Message) (e : String) :
    fetchMessagesUpdate prev (.error e) = prev := rfl

/-! The guard of the send handler. -/

/-- C9: invoking send with an input that trims to the empty string, or
with no selected conversation, or with no current user, leaves the
Message Store unchanged and issues no persistence call. -/
theorem send_guard_no_effect (newMessage : String)
    (selectedChat : Option ChatListItem) (currentUser : Option Profile)
    (tempSuffix : String) (now : Nat) (prev : List Message)
    (h : trimsToEmpty newMessage = true ∨ selectedChat = none ∨
      currentUser = none) :
    handleSendMessagePre newMessage selectedChat currentUser tempSuffix now
      prev = (prev, none) := by
  rcases selectedChat with _ | chat
  · rfl
  rcases currentUser with _ | user
  · rfl
  rcases h with h | h | h
  · simp [handleSendMessagePre, h]
  · exact absurd h (by simp)
  · exact absurd h (by simp)

/-- Closed instance of the guard statement, at a whitespace-only
input. -/
theorem send_guard_no_effect_witness :
    (trimsToEmpty "  " = true ∨ (some dmChat : Option ChatListItem) = none ∨
      (some aliceP : Option Profile) = none) ∧
    handleSendMessagePre "  " (some dmChat) (some aliceP) "1-a" 100
      [confirmedHi] = ([confirmedHi], none) :=
  ⟨Or.inl (by decide),
   send_guard_no_effect "  " (some dmChat) (some aliceP) "1-a" 100
     [confirmedHi] (Or.inl (by decide))⟩

/-! The send-success path with the temporary entry already gone. -/

/-- C10: in the send-success path, when the store holds neither the
temporary entry of this send nor any entry with the confirmed id, the
confirmed record is not added: the update only re-sorts the store, so
its entry set is unchanged up to reordering. -/
theorem send_success_without_temp_adds_nothing
    (tempMessage data : Message) (prev : List Message)
    (htemp : ∀ msg ∈ prev, msg.id ≠ tempMessage.id)
    (hdata : ∀ msg ∈ prev, msg.id ≠ data.id) :
    handleSendSuccess tempMessage data prev = sortByCreatedAt prev ∧
    List.Perm (handleSendSuccess tempMessage data prev) prev ∧
    (data ∉ prev → data ∉ handleSendSuccess tempMessage data prev) := by
  have hfind : prev.find? (fun m => decide (m.id = data.id)) = none :=
    List.find?_eq_none.mpr (fun x hx => by simp [hdata x hx])
  have h1 : handleSendSuccess tempMessage data prev =
      sortByCreatedAt prev := by
    unfold handleSendSuccess
    rw [hfind]
    have hmap : prev.map
        (fun msg => if msg.id = tempMessage.id then data else msg) = prev := by
      calc prev.map (fun msg => if msg.id = tempMessage.id then data else msg)
          = prev.map id :=
            List.map_congr_left (fun msg hm => if_neg (htemp msg hm))
        _ = prev := List.map_id prev
    rw [hmap]
  refine ⟨h1, ?_, ?_⟩
  · rw [h1]
    exact sortByCreatedAt_perm prev
  · intro hnot hmem
    rw [h1, mem_sortByCreatedAt] at hmem
    exact hnot hmem

/-- Closed instance of the no-addition statement. -/
theorem send_success_without_temp_adds_nothing_witness :
    (∀ msg ∈ [tempHi2], msg.id ≠ tempHi1.id) ∧
    (∀ msg ∈ [tempHi2], msg.id ≠ confirmedHi.id) ∧
    (handleSendSuccess tempHi1 confirmedHi [tempHi2] =
        sortByCreatedAt [tempHi2] ∧
     List.Perm (handleSendSuccess tempHi1 confirmedHi [tempHi2]) [tempHi2] ∧
     (confirmedHi ∉ [tempHi2] →
       confirmedHi ∉ handleSendSuccess tempHi1 confirmedHi [tempHi2])) :=
  ⟨by decide, by decide,
   send_success_without_temp_adds_nothing tempHi1 confirmedHi [tempHi2]
     (by decide) (by decide)⟩

end ChatApp
